import Mathlib

/-!
Verification of the ESP32 programmer/bootloader sigrok protocol decoder
(`esp32/pd.py`) against its natural-language specification.

The development shallowly embeds the decoder: the SLIP framing layer
(`SlipDecoder`), the per-direction bootloader protocol field decoder
(`BootloaderProtocolDecoder`), and the channel-routing top level
(`Decoder`).  Machine bytes are `Nat`s; Python operations that can raise
(`list.index`, reading a not-yet-assigned attribute, indexing
`rxtx_channels`) are modelled in the `Option` monad, so `none` models an
exception propagating out of the decode step.
-/

namespace Esp32

/-! ### Hexadecimal formatting, modelling Python's `"%0Nx" % value` -/

/-- A single lowercase hexadecimal digit character. -/
def hexDigitChar (n : Nat) : Char :=
  if n < 10 then Char.ofNat (48 + n) else Char.ofNat (87 + n)

/-- Digits of `n` in base 16, most significant first; empty for `n = 0`.
The first argument is structural fuel (any value `≥` the digit count works). -/
def hexDigitsAux : Nat → Nat → List Char
  | 0, _ => []
  | fuel + 1, n => if n = 0 then [] else hexDigitsAux fuel (n / 16) ++ [hexDigitChar (n % 16)]

/-- Python `"%0<width>x" % n`: lowercase hex, zero-padded to `width`
(wider if the value needs more digits). -/
def hexString (width n : Nat) : String :=
  let ds := hexDigitsAux (n + 1) n
  ⟨List.replicate (width - ds.length) '0' ++ ds⟩

/-! ### Command Descriptor Table (`commandTable` in the source)

Only the `Name` and `Input` fields are ever read by the decoder; the
`Description` field is carried for fidelity.  The `Output` keys present on
a few entries are never read by any code and are not modelled. -/

structure CommandDescriptor where
  Name : String
  Description : String
  Input : String
  deriving DecidableEq, Repr

/-- The static command table: Python `value in commandTable` is
`(commandTable value).isSome`, `commandTable[value]` the payload. -/
def commandTable (opcode : Nat) : Option CommandDescriptor :=
  match opcode with
  | 0x02 => some ⟨"FLASH_BEGIN", "Begin Flash Download",
      "Four 32-bit words: size to erase, number of data packets, data size in one packet, flash offset. A fifth 32-bit word passed to ROM loader only: 1 to begin encrypted flash, 0 to not."⟩
  | 0x03 => some ⟨"FLASH_DATA", "Flash Download Data",
      "Four 32-bit words: data size, sequence number, 0, 0, then data. Uses Checksum."⟩
  | 0x04 => some ⟨"FLASH_END", "Finish Flash Download",
      "One 32-bit word: 0 to reboot, 1 to run user code. Not necessary to send this command if you wish to stay in the loader"⟩
  | 0x05 => some ⟨"MEM_BEGIN", "Begin RAM Download Start",
      "Total size, number of data packets, data size in one packet, memory offset"⟩
  | 0x06 => some ⟨"MEM_END", "Finish RAM Download",
      "Two 32-bit words: execute flag, entry point address"⟩
  | 0x07 => some ⟨"MEM_DATA", "RAM Download Data",
      "Four 32-bit words: data size, sequence number, 0, 0, then data. Uses Checksum."⟩
  | 0x08 => some ⟨"SYNC", "Sync Frame",
      "36 bytes: 0x07 0x07 0x12 0x20, followed by 32 x 0x55"⟩
  | 0x09 => some ⟨"WRITE_REG", "Write 32-bit memory address",
      "Four 32-bit words: address, value, mask and delay (in microseconds)"⟩
  | 0x0A => some ⟨"READ_REG", "Read 32-bit memory address",
      "Address as 32-bit word\n\nRead data as 32-bit word in value field."⟩
  | 0x0B => some ⟨"SPI_SET_PARAMS", "Configure SPI flash",
      "Six 32-bit words: id, total size in bytes, block size, sector size, page size, status mask."⟩
  | 0x0D => some ⟨"SPI_ATTACH", "Attach SPI flash",
      "32-bit word: Zero for normal SPI flash. A second 32-bit word (should be 0) is passed to ROM loader only."⟩
  | 0x0F => some ⟨"CHANGE_BAUDRATE", "Change Baud rate",
      "Two 32-bit words: new baud rate, 0 if we are talking to the ROM loader or the current/old baud rate if we are talking to the stub loader."⟩
  | 0x10 => some ⟨"FLASH_DEFL_BEGIN", "Begin compressed flash download",
      "Four 32-bit words: uncompressed size, number of data packets, data packet size, flash offset. With stub loader the uncompressed size is exact byte count to be written, whereas on ROM bootloader it is rounded up to flash erase block size. A fifth 32-bit word passed to ROM loader only: 1 to begin encrypted flash, 0 to not."⟩
  | 0x11 => some ⟨"FLASH_DEFL_DATA", "Compressed flash download data",
      "Four 32-bit words: data size, sequence number, 0, 0, then data. Uses Checksum.\n\nError code 0xC1 on checksum error."⟩
  | 0x12 => some ⟨"FLASH_DEFL_END", "End compressed flash download",
      "One 32-bit word: 0 to reboot, 1 to run user code. Not necessary to send this command if you wish to stay in the loader."⟩
  | 0x13 => some ⟨"SPI_FLASH_MD5", "Calculate MD5 of flash region",
      "Four 32-bit words: address, size, 0, 0\n\nBody contains 16 raw bytes of MD5 followed by 2 status bytes (stub loader) or 32 hex-coded ASCII (ROM loader) of calculated MD5"⟩
  | 0x14 => some ⟨"GET_SECURITY_INFO", "Read chip security info",
      "32 bits flags, 1 byte flash_crypt_cnt, 7x1 byte key_purposes, 32-bit word chip_id, 32-bit word eco_version"⟩
  | 0xD0 => some ⟨"ERASE_FLASH (stub loader))", "Erase entire flash chip", ""⟩
  | 0xD1 => some ⟨"ERASE_REGION (stub loader)", "Erase flash region",
      "Two 32-bit words: flash offset to erase, erase size in bytes. Both must be multiples of flash sector size."⟩
  | 0xD2 => some ⟨"READ_FLASH (stub loader)", "Read flash",
      "Four 32-bit words: flash offset, read length, flash sector size, read packet size, maximum number of un-acked packets"⟩
  | 0xD3 => some ⟨"RUN_USER_CODE (stub loader)", "Exits loader and runs user code", ""⟩
  | _ => none

/-! ### SLIP framing layer (`SlipDecoder`) -/

/-- `self.slipStatus`, a Python string among "idle", "in_frame", "escape". -/
inductive SlipStatus where
  | idle
  | in_frame
  | escape
  deriving DecidableEq, Repr

/-- The mutable state of a `SlipDecoder` instance. -/
structure SlipState where
  slipStatus : SlipStatus
  slipEscStart : Nat
  deriving DecidableEq, Repr

/-- `SlipDecoder.__init__`. -/
def SlipState.init : SlipState := ⟨.idle, 0⟩

/-- One callback invocation made by `SlipDecoder.decode` on its listener
(the overridable `onData` / `onFrameStart` / `onFrameEnd` / `onError`). -/
inductive SlipEvent where
  | data (ss es value : Nat)
  | frameStart (ss es : Nat)
  | frameEnd (ss es : Nat)
  | error (ss es : Nat) (message : String)
  deriving DecidableEq, Repr

/-- `SlipDecoder.decode(self, ss, es, value)`: returns the updated slip
state and the (zero or one) listener callbacks it performs, in order. -/
def slipDecode (st : SlipState) (ss es value : Nat) : SlipState × List SlipEvent :=
  match st.slipStatus with
  | .idle =>
    if value = 0xC0 then ({ st with slipStatus := .in_frame }, [.frameStart ss es])
    else (st, [.error ss es ("Unexpected value: 0x" ++ hexString 2 value)])
  | .in_frame =>
    if value = 0xC0 then ({ st with slipStatus := .idle }, [.frameEnd ss es])
    else if value = 0xDB then ({ st with slipStatus := .escape, slipEscStart := ss }, [])
    else (st, [.data ss es value])
  | .escape =>
    if value = 0xDC then ({ st with slipStatus := .in_frame }, [.data st.slipEscStart es 0xC0])
    else if value = 0xDD then ({ st with slipStatus := .in_frame }, [.data st.slipEscStart es 0xDB])
    else ({ st with slipStatus := .in_frame },
      [.error st.slipEscStart es ("Unexpected escape value: 0x" ++ hexString 2 value)])

/-- Feed a list of byte values to a `SlipDecoder`, byte `i` spanning
sample positions `(pos + i, pos + i + 1)`; collect all listener events. -/
def slipRun (st : SlipState) (pos : Nat) (vals : List Nat) : SlipState × List SlipEvent :=
  match vals with
  | [] => (st, [])
  | v :: vs =>
    let p1 := slipDecode st pos (pos + 1) v
    let p2 := slipRun p1.1 (pos + 1) vs
    (p2.1, p1.2 ++ p2.2)

/-- SLIP escaping of a payload, as described by the wire format: `0xC0`
becomes `0xDB 0xDC`, `0xDB` becomes `0xDB 0xDD`, all else is literal.
(This encoder is the claims' construction of a valid frame body; the
repository only contains the decoder.) -/
def slipEscape : List Nat → List Nat
  | [] => []
  | b :: bs =>
    (if b = 0xC0 then [0xDB, 0xDC] else if b = 0xDB then [0xDB, 0xDD] else [b]) ++ slipEscape bs

/-- The expected in-frame `Data` events for payload `p` whose escaped image
starts at sample position `pos`: an escaped byte yields one event spanning
both wire bytes, a literal byte one event spanning itself. -/
def slipDataEvents : Nat → List Nat → List SlipEvent
  | _, [] => []
  | pos, b :: bs =>
    if b = 0xC0 ∨ b = 0xDB then .data pos (pos + 2) b :: slipDataEvents (pos + 2) bs
    else .data pos (pos + 1) b :: slipDataEvents (pos + 1) bs

/-- The byte value carried by a `Data` event, `none` for other events. -/
def slipEventValue : SlipEvent → Option Nat
  | .data _ _ v => some v
  | _ => none

/-! ### Protocol field decoder (`BootloaderProtocolDecoder`)

The Python class holds `self.direction` (the string "pm" or "mp", set in
the constructor and never mutated), the inherited slip state, and the
protocol-field attributes.  The direction is modelled as an explicit
parameter; attributes that are only assigned on certain paths
(`segmentStart`, `count`, `acc`, `lastCmd`) are `Option`s whose `none`
models the attribute not existing yet (reading it raises, i.e. the
operation returns `none`). -/

/-- `self.status` / `self.lastStatus`: Python strings "dir", "cmd",
"size", "checksum", "data".  (`lastStatus` is modelled where it is used,
as `Option PStatus`, with `none` for the initial `""`.) -/
inductive PStatus where
  | dir
  | cmd
  | size
  | checksum
  | data
  deriving DecidableEq, Repr

/-- The protocol-field attributes of a `BootloaderProtocolDecoder`. -/
structure ProtoState where
  status : PStatus
  lastStatus : Option PStatus
  segmentStart : Option Nat
  count : Option Nat
  acc : Option Nat
  lastCmd : Option (Option CommandDescriptor)
  deriving DecidableEq, Repr

/-- `BootloaderProtocolDecoder.__init__`: `status = "cmd"`,
`lastStatus = ""`; the other attributes are not assigned yet. -/
def ProtoState.init : ProtoState :=
  { status := .cmd, lastStatus := none, segmentStart := none,
    count := none, acc := none, lastCmd := none }

/-- One annotation as emitted by `Decoder.puta` via `self.put`:
sample range, resolved annotation-class index, and the message list. -/
structure OutAnn where
  ss : Nat
  es : Nat
  ann : Nat
  messages : List String
  deriving DecidableEq, Repr

/-- `Decoder.annotations`: the first component of each annotation-class
tuple, in order; `puta` resolves a class name to its index in this list. -/
def annotationNames : List String :=
  ["pm-dir", "pm-cmd", "pm-size", "pm-checksum", "pm-data", "pm-error",
   "mp-dir", "mp-cmd", "mp-size", "mp-value", "mp-data", "mp-error"]

/-- The argument Python's `puta` accepts for `message`: a plain string or
a list of strings. -/
inductive PutaMsg where
  | str (s : String)
  | list (l : List String)

/-- `Decoder.puta(self, start, end, ann_str, message)`: `.index` raises
`ValueError` when the name is absent, modelled as `none`. -/
def puta (ss es : Nat) (annStr : String) (message : PutaMsg) : Option OutAnn :=
  match annotationNames.findIdx? (· = annStr) with
  | none => none
  | some i =>
    some ⟨ss, es, i, match message with | .str s => [s] | .list l => l⟩

/-- `BootloaderProtocolDecoder.onData(self, ss, es, value)`.  Returns the
updated protocol state and the annotations emitted, or `none` if the
Python code would raise (never reachable from the public interface). -/
def protoOnData (direction : String) (st : ProtoState) (ss es value : Nat) :
    Option (ProtoState × List OutAnn) := do
  let st ←
    if st.lastStatus ≠ some st.status then
      pure { st with segmentStart := some ss, count := some 0, acc := some 0,
                     lastStatus := some st.status }
    else do
      let c ← st.count
      pure { st with count := some (c + 1) }
  match st.status with
  | .dir =>
    let st := { st with status := .cmd }
    if value = 0x00 then do
      let a ← puta ss es (direction ++ "-dir") (.list ["DIR: " ++ "REQ", "REQ"])
      pure (st, [a])
    else if value = 0x01 then do
      let a ← puta ss es (direction ++ "-dir") (.list ["DIR: " ++ "RES", "RES"])
      pure (st, [a])
    else do
      let a ← puta ss es (direction ++ "-error")
        (.str ("Invalid direction: 0x" ++ hexString 2 value))
      pure (st, [a])
  | .cmd =>
    let st := { st with status := .size }
    match commandTable value with
    | some cmd => do
      let st := { st with lastCmd := some (some cmd) }
      let a ← puta ss es (direction ++ "-cmd") (.list ["CMD: " ++ cmd.Name, cmd.Name])
      pure (st, [a])
    | none => do
      let a ← puta ss es (direction ++ "-error")
        (.str ("Invalid command: 0x" ++ hexString 2 value))
      pure (st, [a])
  | .size => do
    let a0 ← st.acc
    let c ← st.count
    let acc := a0 + (value <<< (8 * c))
    let st := { st with acc := some acc }
    if c = 1 then do
      let st := { st with status := .checksum }
      let seg ← st.segmentStart
      let a ← puta seg es (direction ++ "-size")
        (.list ["Size: 0x" ++ hexString 4 acc, "0x" ++ hexString 4 acc])
      pure (st, [a])
    else
      pure (st, [])
  | .checksum => do
    let a0 ← st.acc
    let c ← st.count
    let acc := a0 + (value <<< (8 * c))
    let st := { st with acc := some acc }
    if c = 3 then do
      let st := { st with status := .data }
      let seg ← st.segmentStart
      if direction = "pm" then do
        let a ← puta seg es (direction ++ "-checksum")
          (.list ["Checksum: 0x" ++ hexString 8 acc, "0x" ++ hexString 8 acc])
        pure (st, [a])
      else do
        let a ← puta seg es (direction ++ "-value")
          (.list ["Value: 0x" ++ hexString 8 acc, "0x" ++ hexString 8 acc])
        pure (st, [a])
    else
      pure (st, [])
  | .data =>
    pure (st, [])

/-- `BootloaderProtocolDecoder.onFrameStart(self, ss, es)`. -/
def protoOnFrameStart (st : ProtoState) : ProtoState :=
  { st with status := .dir, lastStatus := none, lastCmd := some none }

/-- `BootloaderProtocolDecoder.onFrameEnd(self, ss, es)`. -/
def protoOnFrameEnd (direction : String) (st : ProtoState) (ss _es : Nat) :
    Option (ProtoState × List OutAnn) := do
  if st.status = .data then do
    let seg ← st.segmentStart
    let lc ← st.lastCmd
    match lc with
    | some cmd => do
      let a ← puta seg ss (direction ++ "-data") (.list ["Data: " ++ cmd.Input, "Data"])
      pure (st, [a])
    | none => do
      let a ← puta seg ss (direction ++ "-data") (.str "Data")
      pure (st, [a])
  else
    pure (st, [])

/-- Dispatch one `SlipDecoder` listener callback to the overriding
`BootloaderProtocolDecoder` handlers (`onError` is `pass`). -/
def protoHandleEvent (direction : String) (st : ProtoState) (e : SlipEvent) :
    Option (ProtoState × List OutAnn) :=
  match e with
  | .data ss es v => protoOnData direction st ss es v
  | .frameStart _ _ => some (protoOnFrameStart st, [])
  | .frameEnd ss es => protoOnFrameEnd direction st ss es
  | .error _ _ _ => some (st, [])

/-- The whole state of one `BootloaderProtocolDecoder` instance: the
inherited `SlipDecoder` attributes plus the protocol-field attributes. -/
structure BPDState where
  slip : SlipState
  proto : ProtoState
  deriving DecidableEq, Repr

/-- A freshly constructed `BootloaderProtocolDecoder`. -/
def BPDState.init : BPDState := ⟨SlipState.init, ProtoState.init⟩

/-- Perform a sequence of listener callbacks in order, accumulating the
annotations they emit. -/
def protoHandleEvents (direction : String) (st : ProtoState) :
    List SlipEvent → Option (ProtoState × List OutAnn)
  | [] => some (st, [])
  | e :: es => do
    let (st1, a1) ← protoHandleEvent direction st e
    let (st2, a2) ← protoHandleEvents direction st1 es
    pure (st2, a1 ++ a2)

/-- The inherited `SlipDecoder.decode` as invoked on a
`BootloaderProtocolDecoder`: run the slip step, then the overridden
callbacks it performs (each step performs at most one callback, and the
callbacks touch only the protocol attributes, so performing them after
the slip-state update is equivalent to the source's interleaving). -/
def bpdDecode (direction : String) (st : BPDState) (ss es value : Nat) :
    Option (BPDState × List OutAnn) := do
  let p := slipDecode st.slip ss es value
  let (pr, anns) ← protoHandleEvents direction st.proto p.2
  pure (⟨p.1, pr⟩, anns)

/-- Feed a list of byte values to a `BootloaderProtocolDecoder`, byte `i`
spanning `(pos + i, pos + i + 1)`; collect all annotations. -/
def bpdRun (direction : String) (st : BPDState) (pos : Nat) (vals : List Nat) :
    Option (BPDState × List OutAnn) :=
  match vals with
  | [] => some (st, [])
  | v :: vs => do
    let (st1, a1) ← bpdDecode direction st pos (pos + 1) v
    let (st2, a2) ← bpdRun direction st1 (pos + 1) vs
    pure (st2, a1 ++ a2)

/-- Run the protocol-field decoder over the de-escaped content of one
frame, exactly as a `SlipDecoder` drives it: `onFrameStart` for the
opening delimiter at `(pos, pos + 1)`, `onData` for de-escaped byte `i` at
`(pos + 1 + i, pos + 2 + i)`, and `onFrameEnd` for the closing delimiter. -/
def protoRunData (direction : String) (st : ProtoState) (pos : Nat) (vals : List Nat) :
    Option (ProtoState × List OutAnn) :=
  match vals with
  | [] => some (st, [])
  | v :: vs => do
    let (st1, a1) ← protoOnData direction st pos (pos + 1) v
    let (st2, a2) ← protoRunData direction st1 (pos + 1) vs
    pure (st2, a1 ++ a2)

/-- One whole frame at the protocol-field level (see `protoRunData`). -/
def protoRunFrame (direction : String) (st : ProtoState) (pos : Nat) (vals : List Nat) :
    Option (ProtoState × List OutAnn) := do
  let st := protoOnFrameStart st
  let (st1, a1) ← protoRunData direction st (pos + 1) vals
  let (st2, a2) ← protoOnFrameEnd direction st1 (pos + 1 + vals.length) (pos + 2 + vals.length)
  pure (st2, a1 ++ a2)

/-! ### Channel router (`Decoder`) -/

/-- `rxtx_channels = ("RX", "TX")`; indexing past the end raises. -/
def rxtxChannels : List String := ["RX", "TX"]

/-- The two channel options of the `Decoder`. -/
structure DecoderOptions where
  pm_channel : String
  mp_channel : String
  deriving DecidableEq, Repr

/-- The state owned by the top-level `Decoder`: one
`BootloaderProtocolDecoder` per logical direction. -/
structure DecoderState where
  pmDecoder : BPDState
  mpDecoder : BPDState
  deriving DecidableEq, Repr

/-- `Decoder.reset`. -/
def DecoderState.init : DecoderState := ⟨BPDState.init, BPDState.init⟩

/-- One packet handed to `Decoder.decode(ss, es, data)` by the uart
decoder, `data = (ptype, rxtx, pdata)`.  For `ptype == "FRAME"` the
payload is `(value, is_valid)`; other ptypes are dropped before their
payload is inspected, so only these fields are modelled. -/
structure UartPacket where
  ss : Nat
  es : Nat
  ptype : String
  rxtx : Nat
  value : Nat
  is_valid : Bool
  deriving DecidableEq, Repr

/-- `Decoder.decode`: drop non-FRAME packets, then forward the byte to
each logical direction whose configured channel matches `rxtx` (possibly
both, possibly neither).  Note the code never consults `is_valid`. -/
def decoderDecode (opts : DecoderOptions) (st : DecoderState) (p : UartPacket) :
    Option (DecoderState × List OutAnn) := do
  if p.ptype ≠ "FRAME" then
    pure (st, [])
  else do
    let ch ← rxtxChannels.get? p.rxtx
    let (st, a1) ←
      if ch = opts.pm_channel then do
        let (d, a) ← bpdDecode "pm" st.pmDecoder p.ss p.es p.value
        pure ({ st with pmDecoder := d }, a)
      else
        pure (st, ([] : List OutAnn))
    let (st, a2) ←
      if ch = opts.mp_channel then do
        let (d, a) ← bpdDecode "mp" st.mpDecoder p.ss p.es p.value
        pure ({ st with mpDecoder := d }, a)
      else
        pure (st, ([] : List OutAnn))
    pure (st, a1 ++ a2)

/-- Feed a packet sequence through the `Decoder`, collecting annotations. -/
def decoderRun (opts : DecoderOptions) (st : DecoderState) (ps : List UartPacket) :
    Option (DecoderState × List OutAnn) :=
  match ps with
  | [] => some (st, [])
  | p :: rest => do
    let (st1, a1) ← decoderDecode opts st p
    let (st2, a2) ← decoderRun opts st1 rest
    pure (st2, a1 ++ a2)

/-! ### Expected annotations and invariants used in the theorem statements -/

/-- The little-endian accumulation of the four checksum/value bytes. -/
def csum (k0 k1 k2 k3 : Nat) : Nat := k0 + k1 <<< 8 + k2 <<< 16 + k3 <<< 24

/-- The message list of the frame-end data annotation, depending on the
descriptor remembered for the frame's command byte. -/
def dataMessages : Option CommandDescriptor → List String
  | some cmd => ["Data: " ++ cmd.Input, "Data"]
  | none => ["Data"]

/-- The annotations the `pm` decoder emits for a direction byte `d` at
span `(ss, ss + 1)`. -/
def pmDirAnns (ss d : Nat) : List OutAnn :=
  if d = 0 then [⟨ss, ss + 1, 0, ["DIR: REQ", "REQ"]⟩]
  else if d = 1 then [⟨ss, ss + 1, 0, ["DIR: RES", "RES"]⟩]
  else [⟨ss, ss + 1, 5, ["Invalid direction: 0x" ++ hexString 2 d]⟩]

/-- The annotations the `pm` decoder emits for a command byte `c` at span
`(ss, ss + 1)`. -/
def pmCmdAnns (ss c : Nat) : List OutAnn :=
  match commandTable c with
  | some cmd => [⟨ss, ss + 1, 1, ["CMD: " ++ cmd.Name, cmd.Name]⟩]
  | none => [⟨ss, ss + 1, 5, ["Invalid command: 0x" ++ hexString 2 c]⟩]

/-- The `pm` size annotation for size bytes `s0 s1` starting at `ss`. -/
def pmSizeAnn (ss s0 s1 : Nat) : OutAnn :=
  ⟨ss, ss + 2, 2, ["Size: 0x" ++ hexString 4 (s0 + s1 <<< 8), "0x" ++ hexString 4 (s0 + s1 <<< 8)]⟩

/-- The `pm` checksum annotation for bytes `k0 k1 k2 k3` starting at `ss`. -/
def pmChecksumAnn (ss k0 k1 k2 k3 : Nat) : OutAnn :=
  ⟨ss, ss + 4, 3, ["Checksum: 0x" ++ hexString 8 (csum k0 k1 k2 k3),
                   "0x" ++ hexString 8 (csum k0 k1 k2 k3)]⟩

/-- The translation taking a `pm` annotation to the `mp` annotation for
the same bytes: the annotation-class index shifts by 6 (`pm-dir ↦ mp-dir`
… `pm-checksum ↦ mp-value` … `pm-error ↦ mp-error`), and the checksum
annotation's labels (class index 3) change their prefix from
`Checksum: ` to `Value: `; everything else is untouched. -/
def mpOfPm (a : OutAnn) : OutAnn :=
  { a with
    ann := a.ann + 6,
    messages :=
      if a.ann = 3 then
        match a.messages with
        | [_, s] => ["Value: " ++ s, s]
        | m => m
      else a.messages }

/-- The protocol state right after a fresh frame's first (direction)
byte, which spanned `(ss, ss + 1)`: this is the same state whether the
direction byte was valid or not. -/
def protoAfterDir (ss : Nat) : ProtoState :=
  { status := .cmd, lastStatus := some .dir, segmentStart := some ss,
    count := some 0, acc := some 0, lastCmd := some none }

/-- The run of everything in a frame after its first byte: the remaining
de-escaped bytes and the frame end (frame start at `(pos, pos + 1)`,
first byte at `(pos + 1, pos + 2)`). -/
def protoRunTail (direction : String) (pos : Nat) (rest : List Nat) :
    Option (ProtoState × List OutAnn) := do
  let (st1, a1) ← protoRunData direction (protoAfterDir (pos + 1)) (pos + 2) rest
  let (st2, a2) ← protoOnFrameEnd direction st1 (pos + 2 + rest.length) (pos + 3 + rest.length)
  pure (st2, a1 ++ a2)

/-- The attribute-initialization invariant of a protocol decoder: once a
field has begun (`lastStatus` assigned), the accumulator attributes
exist; once the data region is reached, the attributes `onFrameEnd`
reads exist. -/
def protoInv (st : ProtoState) : Prop :=
  (st.lastStatus ≠ none → st.count.isSome ∧ st.acc.isSome ∧ st.segmentStart.isSome)
  ∧ (st.status = .data → st.segmentStart.isSome ∧ st.lastCmd.isSome)

/-- The invariant of a whole `BootloaderProtocolDecoder`: the protocol
invariant, plus: once the slip layer has left `idle` (so a frame start
has been seen), the `lastCmd` attribute exists. -/
def bpdInv (st : BPDState) : Prop :=
  protoInv st.proto ∧ (st.slip.slipStatus ≠ .idle → st.proto.lastCmd.isSome)

/-! ## Theorems -/

/-- `(s ++ t) ++ u = s ++ (t ++ u)` for strings. -/
lemma str_append_assoc (s t u : String) : (s ++ t) ++ u = s ++ (t ++ u) := by
  cases s; cases t; cases u
  exact congrArg String.mk (List.append_assoc _ _ _)

/-- From the `in_frame` state, the escaped image of a payload followed by
the closing delimiter produces exactly the payload's `Data` events
followed by one `FrameEnd`, returning to `idle`. -/
lemma slipRun_inframe_escaped (p : List Nat) : ∀ (pos e0 : Nat),
    ∃ e1, slipRun ⟨.in_frame, e0⟩ pos (slipEscape p ++ [0xC0]) =
      (⟨.idle, e1⟩, slipDataEvents pos p ++
        [.frameEnd (pos + (slipEscape p).length) (pos + (slipEscape p).length + 1)]) := by
  induction p with
  | nil =>
    intro pos e0
    exact ⟨e0, by simp [slipEscape, slipDataEvents, slipRun, slipDecode]⟩
  | cons b bs ih =>
    intro pos e0
    by_cases hb : b = 0xC0
    · obtain ⟨e1, h⟩ := ih (pos + 2) pos
      refine ⟨e1, ?_⟩
      subst hb
      simp [slipEscape, slipDataEvents, slipRun, slipDecode, h, Nat.add_assoc]
      omega
    · by_cases hb' : b = 0xDB
      · obtain ⟨e1, h⟩ := ih (pos + 2) pos
        refine ⟨e1, ?_⟩
        subst hb'
        simp [slipEscape, slipDataEvents, slipRun, slipDecode, h, Nat.add_assoc]
        omega
      · obtain ⟨e1, h⟩ := ih (pos + 1) e0
        refine ⟨e1, ?_⟩
        simp [slipEscape, slipDataEvents, slipRun, slipDecode, hb, hb', h, Nat.add_assoc]
        omega

/-- The values carried by the expected `Data` events are the payload. -/
lemma slipDataEvents_values (p : List Nat) : ∀ pos,
    (slipDataEvents pos p).map slipEventValue = p.map some := by
  induction p with
  | nil => intro pos; simp [slipDataEvents]
  | cons b bs ih =>
    intro pos
    by_cases h : b = 0xC0 ∨ b = 0xDB <;> simp [slipDataEvents, h, slipEventValue, ih]

/-- `protoRunData` distributes over list append. -/
lemma protoRunData_append (dir : String) (xs : List Nat) : ∀ (st : ProtoState) (ys : List Nat) (pos : Nat),
    protoRunData dir st pos (xs ++ ys) =
      (do
        let (st1, a1) ← protoRunData dir st pos xs
        let (st2, a2) ← protoRunData dir st1 (pos + xs.length) ys
        pure (st2, a1 ++ a2)) := by
  induction xs with
  | nil => intro st ys pos; simp [protoRunData]
  | cons x xs ih =>
    intro st ys pos
    simp only [List.cons_append, protoRunData, List.length_cons]
    cases h : protoOnData dir st pos (pos + 1) x with
    | none => simp
    | some r =>
      have hih := ih r.1 ys (pos + 1)
      have he : pos + 1 + xs.length = pos + (xs.length + 1) := by omega
      rw [he] at hih
      cases h2 : protoRunData dir r.1 (pos + 1) xs with
      | none => simp [hih, h2]
      | some r2 =>
        cases h3 : protoRunData dir r2.1 (pos + (xs.length + 1)) ys with
        | none => simp [hih, h2, h3]
        | some r3 => simp [hih, h2, h3, List.append_assoc]

set_option maxHeartbeats 2000000 in
/-- Processing the eight header bytes of a fresh frame, starting with the
direction byte at `(pos, pos + 1)`: the decoder ends in the `data` state
remembering `commandTable c`, having emitted the direction, command, size
and checksum annotations (with errors in place of direction/command
annotations for invalid bytes). -/
lemma protoRunData_header (s : ProtoState) (pos d c s0 s1 k0 k1 k2 k3 : Nat) :
    protoRunData "pm" (protoOnFrameStart s) pos [d, c, s0, s1, k0, k1, k2, k3] =
      some (⟨.data, some .checksum, some (pos + 4), some 3,
             some (csum k0 k1 k2 k3), some (commandTable c)⟩,
        pmDirAnns pos d ++ pmCmdAnns (pos + 1) c ++
          [pmSizeAnn (pos + 2) s0 s1, pmChecksumAnn (pos + 4) k0 k1 k2 k3]) := by
  obtain ⟨stat, last, seg, c0, a0, lc⟩ := s
  have hd : d = 0 ∨ d = 1 ∨ (¬d = 0 ∧ ¬d = 1) := by omega
  rcases hd with hd | hd | ⟨hd0, hd1⟩
  · subst hd
    cases hc : commandTable c <;>
      simp [protoRunData, protoOnData, protoOnFrameStart, puta, annotationNames,
        pmDirAnns, pmCmdAnns, pmSizeAnn, pmChecksumAnn, csum, hc]
  · subst hd
    cases hc : commandTable c <;>
      simp [protoRunData, protoOnData, protoOnFrameStart, puta, annotationNames,
        pmDirAnns, pmCmdAnns, pmSizeAnn, pmChecksumAnn, csum, hc]
  · cases hc : commandTable c <;>
      simp [protoRunData, protoOnData, protoOnFrameStart, puta, annotationNames,
        pmDirAnns, pmCmdAnns, pmSizeAnn, pmChecksumAnn, csum, hc, hd0, hd1]

/-- In the `data` state with `lastStatus` already `data`, further bytes
are absorbed: no annotations, only the byte count advances. -/
lemma protoRunData_data_steady (dir : String) (vs : List Nat) :
    ∀ (st : ProtoState) (pos cnt : Nat), st.status = .data → st.lastStatus = some .data →
    st.count = some cnt →
    protoRunData dir st pos vs = some ({ st with count := some (cnt + vs.length) }, []) := by
  induction vs with
  | nil =>
    intro st pos cnt h1 h2 h3
    obtain ⟨stat, last, seg, c0, a0, lc⟩ := st
    simp only at h1 h2 h3
    subst h1; subst h2; subst h3
    simp [protoRunData]
  | cons v vs ih =>
    intro st pos cnt h1 h2 h3
    obtain ⟨stat, last, seg, c0, a0, lc⟩ := st
    simp only at h1 h2 h3
    subst h1; subst h2; subst h3
    have hstep : protoOnData dir ⟨.data, some .data, seg, some cnt, a0, lc⟩ pos (pos + 1) v =
        some (⟨.data, some .data, seg, some (cnt + 1), a0, lc⟩, []) := by
      simp [protoOnData]
    have hrec := ih ⟨.data, some .data, seg, some (cnt + 1), a0, lc⟩ (pos + 1) (cnt + 1)
      rfl rfl rfl
    simp [protoRunData, hstep]
    rw [hrec]
    have h4 : cnt + 1 + vs.length = cnt + (vs.length + 1) := by omega
    simp [h4]

/-- First byte in the `data` state after the checksum field: the segment
start moves to it, and all further bytes are absorbed with no
annotations. -/
lemma protoRunData_data_cons (dir : String) (v : Nat) (vs : List Nat) (st : ProtoState)
    (pos : Nat) (h1 : st.status = .data) (h2 : st.lastStatus = some .checksum) :
    protoRunData dir st pos (v :: vs) =
      some ({ st with segmentStart := some pos, count := some vs.length,
                      acc := some 0, lastStatus := some .data }, []) := by
  obtain ⟨stat, last, seg, c0, a0, lc⟩ := st
  simp only at h1 h2
  subst h1; subst h2
  have hstep : protoOnData dir ⟨.data, some .checksum, seg, c0, a0, lc⟩ pos (pos + 1) v =
      some (⟨.data, some .data, some pos, some 0, some 0, lc⟩, []) := by
    simp [protoOnData]
  have hrec := protoRunData_data_steady dir vs ⟨.data, some .data, some pos, some 0, some 0, lc⟩
    (pos + 1) 0 rfl rfl rfl
  simp [protoRunData, hstep]
  rw [hrec]
  simp

/-- A complete frame with at least the eight header bytes, on the `pm`
decoder: the annotations are exactly direction, command, size,
checksum, and one data annotation — the data annotation's range starting
at the first data byte, or at the checksum field's start when the frame
has no data bytes. -/
lemma protoRunFrame_full (s : ProtoState) (pos d c s0 s1 k0 k1 k2 k3 : Nat) (rest : List Nat) :
    ∃ st', protoRunFrame "pm" s pos (d :: c :: s0 :: s1 :: k0 :: k1 :: k2 :: k3 :: rest) =
      some (st',
        pmDirAnns (pos + 1) d ++ pmCmdAnns (pos + 2) c ++
          [pmSizeAnn (pos + 3) s0 s1, pmChecksumAnn (pos + 5) k0 k1 k2 k3,
           ⟨(if rest.isEmpty then pos + 5 else pos + 9), pos + 9 + rest.length, 4,
             dataMessages (commandTable c)⟩]) ∧ st'.status = .data := by
  cases rest with
  | nil =>
    refine ⟨⟨.data, some .checksum, some (pos + 1 + 4), some 3,
      some (csum k0 k1 k2 k3), some (commandTable c)⟩, ?_, rfl⟩
    unfold protoRunFrame
    dsimp only
    rw [protoRunData_header]
    cases hc : commandTable c <;>
      simp [protoOnFrameEnd, puta, annotationNames, dataMessages, hc, Nat.add_assoc]
  | cons v vs =>
    refine ⟨⟨.data, some .data, some (pos + 9), some vs.length,
      some 0, some (commandTable c)⟩, ?_, rfl⟩
    unfold protoRunFrame
    dsimp only
    rw [show (d :: c :: s0 :: s1 :: k0 :: k1 :: k2 :: k3 :: v :: vs) =
      [d, c, s0, s1, k0, k1, k2, k3] ++ (v :: vs) from rfl]
    rw [protoRunData_append, protoRunData_header]
    have hlen1 : pos + 1 + ([d, c, s0, s1, k0, k1, k2, k3] ++ v :: vs).length =
        pos + (9 + (vs.length + 1)) := by
      simp
      omega
    rw [hlen1]
    have hcons := protoRunData_data_cons "pm" v vs
      ⟨.data, some .checksum, some (pos + 5), some 3,
        some (csum k0 k1 k2 k3), some (commandTable c)⟩
      (pos + 9) rfl rfl
    cases hc : commandTable c <;>
      rw [hc] at hcons <;>
      simp [hcons, protoOnFrameEnd, puta, annotationNames, dataMessages, hc, Nat.add_assoc]

/-- C1: for every payload byte list `p`, feeding a fresh Frame Decoder
`0xC0 ++ escape(p) ++ 0xC0` emits exactly one `FrameStart`, then `Data`
events whose values equal `p` in order (one event per escaped byte), then
exactly one `FrameEnd`, with no other events (in particular no `Error`s
and no `Data` outside that span). -/
theorem slip_frame_roundtrip (p : List Nat) (_hp : ∀ b ∈ p, b < 256) :
    ∃ ds a b, (slipRun SlipState.init 0 (0xC0 :: (slipEscape p ++ [0xC0]))).2 =
        SlipEvent.frameStart 0 1 :: (ds ++ [SlipEvent.frameEnd a b]) ∧
      ds.map slipEventValue = p.map some := by
  obtain ⟨e1, h⟩ := slipRun_inframe_escaped p 1 0
  refine ⟨slipDataEvents 1 p, 1 + (slipEscape p).length, 1 + (slipEscape p).length + 1,
    ?_, slipDataEvents_values p 1⟩
  simp [slipRun, slipDecode, SlipState.init, h]

/-- Witness for `slip_frame_roundtrip` at the concrete payload
`[0xC0, 0xDB, 0x41]`, which exercises both escape codes. -/
theorem slip_frame_roundtrip_witness :
    (∀ b ∈ [0xC0, 0xDB, 0x41], b < 256) ∧
    ∃ ds a b, (slipRun SlipState.init 0
        (0xC0 :: (slipEscape [0xC0, 0xDB, 0x41] ++ [0xC0]))).2 =
        SlipEvent.frameStart 0 1 :: (ds ++ [SlipEvent.frameEnd a b]) ∧
      ds.map slipEventValue = [0xC0, 0xDB, 0x41].map some :=
  ⟨by decide, slip_frame_roundtrip [0xC0, 0xDB, 0x41] (by decide)⟩

/-- C4: a frame whose command byte is unknown (not in the Command
Descriptor Table) gets an error annotation at the command byte's span,
decoding still advances — the size and checksum annotations are emitted
from the following six bytes — and the frame-end data annotation carries
the generic `Data` label (the state still reaches the data region). -/
theorem unknown_opcode_error_and_continue (pos d c s0 s1 k0 k1 k2 k3 : Nat)
    (rest : List Nat) (hc : commandTable c = none) :
    ∃ st', protoRunFrame "pm" ProtoState.init pos
        (d :: c :: s0 :: s1 :: k0 :: k1 :: k2 :: k3 :: rest) =
      some (st',
        pmDirAnns (pos + 1) d ++
          [⟨pos + 2, pos + 3, 5, ["Invalid command: 0x" ++ hexString 2 c]⟩,
           pmSizeAnn (pos + 3) s0 s1, pmChecksumAnn (pos + 5) k0 k1 k2 k3,
           ⟨(if rest.isEmpty then pos + 5 else pos + 9), pos + 9 + rest.length, 4,
             ["Data"]⟩]) ∧ st'.status = .data := by
  obtain ⟨st', heq, hst⟩ := protoRunFrame_full ProtoState.init pos d c s0 s1 k0 k1 k2 k3 rest
  refine ⟨st', ?_, hst⟩
  rw [heq]
  simp [pmCmdAnns, hc, dataMessages]

/-- Witness for `unknown_opcode_error_and_continue` at the opcode `0xFF`
(absent from the table). -/
theorem unknown_opcode_error_and_continue_witness :
    commandTable 0xFF = none ∧
    ∃ st', protoRunFrame "pm" ProtoState.init 0
        (0x00 :: 0xFF :: 0x05 :: 0x00 :: 0xAA :: 0xBB :: 0xCC :: 0xDD :: [0x42]) =
      some (st',
        pmDirAnns 1 0x00 ++
          [⟨2, 3, 5, ["Invalid command: 0x" ++ hexString 2 0xFF]⟩,
           pmSizeAnn 3 0x05 0x00, pmChecksumAnn 5 0xAA 0xBB 0xCC 0xDD,
           ⟨(if ([0x42] : List Nat).isEmpty then 5 else 9), 9 + [0x42].length, 4,
             ["Data"]⟩]) ∧ st'.status = .data :=
  ⟨rfl, unknown_opcode_error_and_continue 0 0x00 0xFF 0x05 0x00 0xAA 0xBB 0xCC 0xDD [0x42] rfl⟩

/-- C10: a frame of exactly the eight header bytes and no data bytes
still gets a data annotation at frame end, and that annotation's range
starts at the first byte of the checksum-or-value field (`pos + 5`, the
last recorded field start) and ends at the closing delimiter's start. -/
theorem empty_data_frame_data_annotation (pos d c s0 s1 k0 k1 k2 k3 : Nat)
    (_hd : d = 0 ∨ d = 1) :
    ∃ st', protoRunFrame "pm" ProtoState.init pos [d, c, s0, s1, k0, k1, k2, k3] =
      some (st',
        pmDirAnns (pos + 1) d ++ pmCmdAnns (pos + 2) c ++
          [pmSizeAnn (pos + 3) s0 s1, pmChecksumAnn (pos + 5) k0 k1 k2 k3,
           ⟨pos + 5, pos + 9, 4, dataMessages (commandTable c)⟩]) := by
  obtain ⟨st', heq, _⟩ := protoRunFrame_full ProtoState.init pos d c s0 s1 k0 k1 k2 k3 []
  exact ⟨st', by simpa using heq⟩

/-- Witness for `empty_data_frame_data_annotation` at a concrete
header-only frame. -/
theorem empty_data_frame_data_annotation_witness :
    ((0 : Nat) = 0 ∨ (0 : Nat) = 1) ∧
    ∃ st', protoRunFrame "pm" ProtoState.init 0 [0, 2, 5, 0, 0xAA, 0xBB, 0xCC, 0xDD] =
      some (st',
        pmDirAnns 1 0 ++ pmCmdAnns 2 2 ++
          [pmSizeAnn 3 5 0, pmChecksumAnn 5 0xAA 0xBB 0xCC 0xDD,
           ⟨5, 9, 4, dataMessages (commandTable 2)⟩]) :=
  ⟨Or.inl rfl, empty_data_frame_data_annotation 0 0 2 5 0 0xAA 0xBB 0xCC 0xDD (Or.inl rfl)⟩

/-- Direction annotations are never data annotations. -/
lemma pmDirAnns_filter_data (ss d : Nat) :
    (pmDirAnns ss d).filter (fun a => a.ann == 4) = [] := by
  unfold pmDirAnns
  split_ifs <;> rfl

/-- Command annotations are never data annotations. -/
lemma pmCmdAnns_filter_data (ss c : Nat) :
    (pmCmdAnns ss c).filter (fun a => a.ann == 4) = [] := by
  unfold pmCmdAnns
  cases commandTable c <;> rfl

/-- C8 counterexample: the frame `0xC0 00 02 05 00 AA BB CC DD 0xC0`
ends before any data byte arrives, yet exactly one data annotation is
emitted at frame end (the data state is reached on the eighth header
byte, so "no data byte" does not imply "no data annotation"). -/
theorem data_annotation_despite_no_data_bytes :
    (protoRunFrame "pm" ProtoState.init 0
        [0x00, 0x02, 0x05, 0x00, 0xAA, 0xBB, 0xCC, 0xDD]).map
      (fun r => (r.2.filter (fun a => a.ann == 4)).length) = some 1 := by
  decide

set_option maxHeartbeats 12000000 in
/-- C8 (amended): at frame end the `pm` decoder emits exactly one data
annotation if and only if the frame reached the data field state, which
happens exactly when the frame carried at least the 8 header bytes; the
annotation is labeled from the descriptor resolved for the frame's
command byte (second byte), or a generic `Data` label if none resolved.
In particular a frame with a complete header and zero data bytes does
get a data annotation. -/
theorem data_annotation_iff_data_state (pos : Nat) (vals : List Nat) :
    (protoRunFrame "pm" ProtoState.init pos vals).map
        (fun r => ((r.2.filter (fun a => a.ann == 4)).map OutAnn.messages,
          decide (r.1.status = PStatus.data))) =
      some ((if 8 ≤ vals.length then [dataMessages (commandTable (vals.getD 1 0))] else []),
        decide (8 ≤ vals.length)) := by
  rcases vals with _ | ⟨d, _ | ⟨c, _ | ⟨s0, _ | ⟨s1, _ | ⟨k0, _ | ⟨k1, _ | ⟨k2, _ | ⟨k3, rest⟩⟩⟩⟩⟩⟩⟩⟩
  · simp [protoRunFrame, protoRunData, protoOnFrameStart, protoOnFrameEnd]
  · rcases show d = 0 ∨ d = 1 ∨ (¬d = 0 ∧ ¬d = 1) from by omega with hd | hd | ⟨hd0, hd1⟩
    · subst hd
      simp [protoRunFrame, protoRunData, protoOnData, protoOnFrameStart, protoOnFrameEnd,
        puta, annotationNames]
    · subst hd
      simp [protoRunFrame, protoRunData, protoOnData, protoOnFrameStart, protoOnFrameEnd,
        puta, annotationNames]
    · simp [protoRunFrame, protoRunData, protoOnData, protoOnFrameStart, protoOnFrameEnd,
        puta, annotationNames, hd0, hd1]
  · rcases show d = 0 ∨ d = 1 ∨ (¬d = 0 ∧ ¬d = 1) from by omega with hd | hd | ⟨hd0, hd1⟩
    · subst hd
      cases hc : commandTable c <;>
        simp [protoRunFrame, protoRunData, protoOnData, protoOnFrameStart, protoOnFrameEnd,
          puta, annotationNames, hc]
    · subst hd
      cases hc : commandTable c <;>
        simp [protoRunFrame, protoRunData, protoOnData, protoOnFrameStart, protoOnFrameEnd,
          puta, annotationNames, hc]
    · cases hc : commandTable c <;>
        simp [protoRunFrame, protoRunData, protoOnData, protoOnFrameStart, protoOnFrameEnd,
          puta, annotationNames, hc, hd0, hd1]
  · rcases show d = 0 ∨ d = 1 ∨ (¬d = 0 ∧ ¬d = 1) from by omega with hd | hd | ⟨hd0, hd1⟩
    · subst hd
      cases hc : commandTable c <;>
        simp [protoRunFrame, protoRunData, protoOnData, protoOnFrameStart, protoOnFrameEnd,
          puta, annotationNames, hc]
    · subst hd
      cases hc : commandTable c <;>
        simp [protoRunFrame, protoRunData, protoOnData, protoOnFrameStart, protoOnFrameEnd,
          puta, annotationNames, hc]
    · cases hc : commandTable c <;>
        simp [protoRunFrame, protoRunData, protoOnData, protoOnFrameStart, protoOnFrameEnd,
          puta, annotationNames, hc, hd0, hd1]
  · rcases show d = 0 ∨ d = 1 ∨ (¬d = 0 ∧ ¬d = 1) from by omega with hd | hd | ⟨hd0, hd1⟩
    · subst hd
      cases hc : commandTable c <;>
        simp [protoRunFrame, protoRunData, protoOnData, protoOnFrameStart, protoOnFrameEnd,
          puta, annotationNames, hc]
    · subst hd
      cases hc : commandTable c <;>
        simp [protoRunFrame, protoRunData, protoOnData, protoOnFrameStart, protoOnFrameEnd,
          puta, annotationNames, hc]
    · cases hc : commandTable c <;>
        simp [protoRunFrame, protoRunData, protoOnData, protoOnFrameStart, protoOnFrameEnd,
          puta, annotationNames, hc, hd0, hd1]
  · rcases show d = 0 ∨ d = 1 ∨ (¬d = 0 ∧ ¬d = 1) from by omega with hd | hd | ⟨hd0, hd1⟩
    · subst hd
      cases hc : commandTable c <;>
        simp [protoRunFrame, protoRunData, protoOnData, protoOnFrameStart, protoOnFrameEnd,
          puta, annotationNames, hc]
    · subst hd
      cases hc : commandTable c <;>
        simp [protoRunFrame, protoRunData, protoOnData, protoOnFrameStart, protoOnFrameEnd,
          puta, annotationNames, hc]
    · cases hc : commandTable c <;>
        simp [protoRunFrame, protoRunData, protoOnData, protoOnFrameStart, protoOnFrameEnd,
          puta, annotationNames, hc, hd0, hd1]
  · rcases show d = 0 ∨ d = 1 ∨ (¬d = 0 ∧ ¬d = 1) from by omega with hd | hd | ⟨hd0, hd1⟩
    · subst hd
      cases hc : commandTable c <;>
        simp [protoRunFrame, protoRunData, protoOnData, protoOnFrameStart, protoOnFrameEnd,
          puta, annotationNames, hc]
    · subst hd
      cases hc : commandTable c <;>
        simp [protoRunFrame, protoRunData, protoOnData, protoOnFrameStart, protoOnFrameEnd,
          puta, annotationNames, hc]
    · cases hc : commandTable c <;>
        simp [protoRunFrame, protoRunData, protoOnData, protoOnFrameStart, protoOnFrameEnd,
          puta, annotationNames, hc, hd0, hd1]
  · rcases show d = 0 ∨ d = 1 ∨ (¬d = 0 ∧ ¬d = 1) from by omega with hd | hd | ⟨hd0, hd1⟩
    · subst hd
      cases hc : commandTable c <;>
        simp [protoRunFrame, protoRunData, protoOnData, protoOnFrameStart, protoOnFrameEnd,
          puta, annotationNames, hc]
    · subst hd
      cases hc : commandTable c <;>
        simp [protoRunFrame, protoRunData, protoOnData, protoOnFrameStart, protoOnFrameEnd,
          puta, annotationNames, hc]
    · cases hc : commandTable c <;>
        simp [protoRunFrame, protoRunData, protoOnData, protoOnFrameStart, protoOnFrameEnd,
          puta, annotationNames, hc, hd0, hd1]
  · obtain ⟨st', heq, hst⟩ := protoRunFrame_full ProtoState.init pos d c s0 s1 k0 k1 k2 k3 rest
    rw [heq]
    simp [hst, List.filter_append, pmDirAnns_filter_data, pmCmdAnns_filter_data,
      pmSizeAnn, pmChecksumAnn, Nat.le_add_left]

/-- Unpack an `Option.elim False` fact. -/
lemma elim_false_exists {α : Type} {o : Option α} {P : α → Prop} (h : o.elim False P) :
    ∃ x, o = some x ∧ P x := by cases o <;> simp_all

/-- `onFrameStart` establishes the decoder invariant and the `lastCmd`
attribute. -/
lemma protoOnFrameStart_inv (st : ProtoState) :
    protoInv (protoOnFrameStart st) ∧ (protoOnFrameStart st).lastCmd.isSome := by
  simp [protoInv, protoOnFrameStart]

set_option maxHeartbeats 4000000 in
/-- `onData` never raises and preserves the invariant, for either
direction, whenever the invariant holds and `lastCmd` exists. -/
lemma protoOnData_inv (dir : String) (st : ProtoState) (ss es v : Nat)
    (hdir : dir = "pm" ∨ dir = "mp") (hinv : protoInv st) (hlc : st.lastCmd.isSome) :
    (protoOnData dir st ss es v).elim False (fun r => protoInv r.1 ∧ r.1.lastCmd.isSome) := by
  obtain ⟨stat, last, seg, cnt, acc, lc⟩ := st
  simp only [protoInv] at hinv
  simp only at hlc
  cases stat
  case dir =>
    by_cases hR : last ≠ some PStatus.dir
    · by_cases h0 : v = 0
      · subst h0
        rcases hdir with rfl | rfl <;>
          simp [protoOnData, hR, protoInv, puta, annotationNames, hlc]
      · by_cases h1 : v = 1
        · subst h1
          rcases hdir with rfl | rfl <;>
            simp [protoOnData, hR, h0, protoInv, puta, annotationNames, hlc]
        · rcases hdir with rfl | rfl <;>
            simp [protoOnData, hR, h0, h1, protoInv, puta, annotationNames, hlc]
    · push_neg at hR
      have hattr := hinv.1 (by simp [hR])
      obtain ⟨cv, hcv⟩ := Option.isSome_iff_exists.mp hattr.1
      obtain ⟨av, hav⟩ := Option.isSome_iff_exists.mp hattr.2.1
      obtain ⟨sv, hsv⟩ := Option.isSome_iff_exists.mp hattr.2.2
      subst hcv; subst hav; subst hsv; subst hR
      by_cases h0 : v = 0
      · subst h0
        rcases hdir with rfl | rfl <;>
          simp [protoOnData, protoInv, puta, annotationNames, hlc]
      · by_cases h1 : v = 1
        · subst h1
          rcases hdir with rfl | rfl <;>
            simp [protoOnData, h0, protoInv, puta, annotationNames, hlc]
        · rcases hdir with rfl | rfl <;>
            simp [protoOnData, h0, h1, protoInv, puta, annotationNames, hlc]
  case cmd =>
    by_cases hR : last ≠ some PStatus.cmd
    · cases htab : commandTable v <;>
        rcases hdir with rfl | rfl <;>
          simp [protoOnData, hR, htab, protoInv, puta, annotationNames, hlc]
    · push_neg at hR
      have hattr := hinv.1 (by simp [hR])
      obtain ⟨cv, hcv⟩ := Option.isSome_iff_exists.mp hattr.1
      obtain ⟨av, hav⟩ := Option.isSome_iff_exists.mp hattr.2.1
      obtain ⟨sv, hsv⟩ := Option.isSome_iff_exists.mp hattr.2.2
      subst hcv; subst hav; subst hsv; subst hR
      cases htab : commandTable v <;>
        rcases hdir with rfl | rfl <;>
          simp [protoOnData, htab, protoInv, puta, annotationNames, hlc]
  case size =>
    by_cases hR : last ≠ some PStatus.size
    · rcases hdir with rfl | rfl <;>
        simp [protoOnData, hR, protoInv, puta, annotationNames, hlc]
    · push_neg at hR
      have hattr := hinv.1 (by simp [hR])
      obtain ⟨cv, hcv⟩ := Option.isSome_iff_exists.mp hattr.1
      obtain ⟨av, hav⟩ := Option.isSome_iff_exists.mp hattr.2.1
      obtain ⟨sv, hsv⟩ := Option.isSome_iff_exists.mp hattr.2.2
      subst hcv; subst hav; subst hsv; subst hR
      by_cases hc1 : cv = 0
      · rcases hdir with rfl | rfl <;>
          simp [protoOnData, hc1, protoInv, puta, annotationNames, hlc]
      · rcases hdir with rfl | rfl <;>
          simp [protoOnData, hc1, protoInv, puta, annotationNames, hlc]
  case checksum =>
    by_cases hR : last ≠ some PStatus.checksum
    · rcases hdir with rfl | rfl <;>
        simp [protoOnData, hR, protoInv, puta, annotationNames, hlc]
    · push_neg at hR
      have hattr := hinv.1 (by simp [hR])
      obtain ⟨cv, hcv⟩ := Option.isSome_iff_exists.mp hattr.1
      obtain ⟨av, hav⟩ := Option.isSome_iff_exists.mp hattr.2.1
      obtain ⟨sv, hsv⟩ := Option.isSome_iff_exists.mp hattr.2.2
      subst hcv; subst hav; subst hsv; subst hR
      by_cases hc3 : cv = 2
      · rcases hdir with rfl | rfl <;>
          simp [protoOnData, hc3, protoInv, puta, annotationNames, hlc]
      · rcases hdir with rfl | rfl <;>
          simp [protoOnData, hc3, protoInv, puta, annotationNames, hlc]
  case data =>
    by_cases hR : last ≠ some PStatus.data
    · simp [protoOnData, hR, protoInv, hlc]
    · push_neg at hR
      have hattr := hinv.1 (by simp [hR])
      obtain ⟨cv, hcv⟩ := Option.isSome_iff_exists.mp hattr.1
      obtain ⟨av, hav⟩ := Option.isSome_iff_exists.mp hattr.2.1
      obtain ⟨sv, hsv⟩ := Option.isSome_iff_exists.mp hattr.2.2
      subst hcv; subst hav; subst hsv; subst hR
      simp [protoOnData, protoInv, hlc]

/-- `protoRunData` never raises and preserves the invariant. -/
lemma protoRunData_inv (dir : String) (hdir : dir = "pm" ∨ dir = "mp") :
    ∀ (vals : List Nat) (st : ProtoState) (pos : Nat), protoInv st → st.lastCmd.isSome →
    (protoRunData dir st pos vals).elim False (fun r => protoInv r.1 ∧ r.1.lastCmd.isSome) := by
  intro vals
  induction vals with
  | nil =>
    intro st pos hinv hlc
    simp only [protoRunData, Option.elim_some]
    exact ⟨hinv, hlc⟩
  | cons v vs ih =>
    intro st pos hinv hlc
    obtain ⟨r, hr, hP⟩ := elim_false_exists (protoOnData_inv dir st pos (pos + 1) v hdir hinv hlc)
    obtain ⟨r2, hr2, hP2⟩ := elim_false_exists (ih r.1 (pos + 1) hP.1 hP.2)
    simp [protoRunData, hr, hr2]
    exact hP2

/-- `onFrameEnd` never raises and does not change the state. -/
lemma protoOnFrameEnd_inv (dir : String) (st : ProtoState) (ss es : Nat)
    (hdir : dir = "pm" ∨ dir = "mp") (hinv : protoInv st) :
    (protoOnFrameEnd dir st ss es).elim False (fun r => r.1 = st) := by
  by_cases hds : st.status = .data
  · have h2 := hinv.2 hds
    obtain ⟨sv, hsv⟩ := Option.isSome_iff_exists.mp h2.1
    obtain ⟨lcv, hlcv⟩ := Option.isSome_iff_exists.mp h2.2
    cases lcv <;> rcases hdir with rfl | rfl <;>
      simp [protoOnFrameEnd, hds, hsv, hlcv, puta, annotationNames]
  · simp [protoOnFrameEnd, hds]

/-- The run of a frame tail never raises. -/
lemma protoRunTail_isSome (dir : String) (pos : Nat) (rest : List Nat)
    (hdir : dir = "pm" ∨ dir = "mp") : (protoRunTail dir pos rest).isSome := by
  have h1 : protoInv (protoAfterDir (pos + 1)) := by simp [protoInv, protoAfterDir]
  have h2 : (protoAfterDir (pos + 1)).lastCmd.isSome := by simp [protoAfterDir]
  obtain ⟨r, hr, hP⟩ := elim_false_exists
    (protoRunData_inv dir hdir rest (protoAfterDir (pos + 1)) (pos + 2) h1 h2)
  obtain ⟨r2, hr2, _⟩ := elim_false_exists
    (protoOnFrameEnd_inv dir r.1 (pos + 2 + rest.length) (pos + 3 + rest.length) hdir hP.1)
  simp [protoRunTail, hr, hr2]

set_option maxRecDepth 8000 in
/-- C5 counterexample: the frame `0xC0 05 02 05 00 AA BB CC DD 0xC0` has
the invalid direction byte `0x05`, yet one command annotation is still
emitted afterwards and the remembered command is set to the `0x02`
descriptor — the header state does advance. -/
theorem invalid_direction_counterexample :
    (protoRunFrame "pm" ProtoState.init 0
        [0x05, 0x02, 0x05, 0x00, 0xAA, 0xBB, 0xCC, 0xDD]).map
      (fun r => ((r.2.filter (fun a => a.ann == 1)).length, r.1.lastCmd)) =
      some (1, some (commandTable 0x02)) := by
  decide

/-- C5 (amended): a frame whose first de-escaped byte is outside
`{0x00, 0x01}` gets an error annotation for that byte and no direction
annotation, but the header state still advances to the command field:
the rest of the frame is decoded exactly as it would be after a valid
direction byte (same continuation `protoRunTail`, which can emit
command, size and checksum annotations and set the remembered command),
and the frame's eventual FrameEnd is handled without failure. -/
theorem invalid_direction_error_still_advances (pos d : Nat) (rest : List Nat)
    (_hd256 : d < 256) (h0 : d ≠ 0) (h1 : d ≠ 1) :
    (protoRunFrame "pm" ProtoState.init pos (d :: rest) =
      (protoRunTail "pm" pos rest).map
        (fun r => (r.1, (⟨pos + 1, pos + 2, 5,
          ["Invalid direction: 0x" ++ hexString 2 d]⟩ : OutAnn) :: r.2))) ∧
    (protoRunFrame "pm" ProtoState.init pos (0x00 :: rest) =
      (protoRunTail "pm" pos rest).map
        (fun r => (r.1, (⟨pos + 1, pos + 2, 0, ["DIR: REQ", "REQ"]⟩ : OutAnn) :: r.2))) ∧
    (protoRunFrame "pm" ProtoState.init pos (d :: rest)).isSome := by
  have hstep : protoOnData "pm" (protoOnFrameStart ProtoState.init) (pos + 1) (pos + 2) d =
      some (protoAfterDir (pos + 1),
        [⟨pos + 1, pos + 2, 5, ["Invalid direction: 0x" ++ hexString 2 d]⟩]) := by
    simp [protoOnData, protoOnFrameStart, ProtoState.init, protoAfterDir, puta,
      annotationNames, h0, h1]
  have hstep0 : protoOnData "pm" (protoOnFrameStart ProtoState.init) (pos + 1) (pos + 2) 0 =
      some (protoAfterDir (pos + 1), [⟨pos + 1, pos + 2, 0, ["DIR: REQ", "REQ"]⟩]) := by
    simp [protoOnData, protoOnFrameStart, ProtoState.init, protoAfterDir, puta, annotationNames]
  have heq : ∀ (v : Nat) (a : OutAnn),
      protoOnData "pm" (protoOnFrameStart ProtoState.init) (pos + 1) (pos + 2) v =
        some (protoAfterDir (pos + 1), [a]) →
      protoRunFrame "pm" ProtoState.init pos (v :: rest) =
        (protoRunTail "pm" pos rest).map (fun r => (r.1, a :: r.2)) := by
    intro v a hv
    unfold protoRunFrame protoRunTail
    dsimp only
    have hlen : pos + 1 + (v :: rest).length = pos + 2 + rest.length := by
      simp
      omega
    have hlen2 : pos + 2 + (v :: rest).length = pos + 3 + rest.length := by
      simp
      omega
    rw [hlen, hlen2]
    simp only [protoRunData, hv]
    cases h2 : protoRunData "pm" (protoAfterDir (pos + 1)) (pos + 2) rest with
    | none => simp [h2, Nat.add_assoc]
    | some r =>
      cases h3 : protoOnFrameEnd "pm" r.1 (pos + 2 + rest.length) (pos + 3 + rest.length) with
      | none => simp [h2, h3, Nat.add_assoc]
      | some r2 => simp [h2, h3, Nat.add_assoc]
  refine ⟨heq d _ hstep, heq 0 _ hstep0, ?_⟩
  rw [heq d _ hstep]
  obtain ⟨r, hr⟩ := Option.isSome_iff_exists.mp (protoRunTail_isSome "pm" pos rest (Or.inl rfl))
  simp [hr]

/-- Witness for `invalid_direction_error_still_advances` at the
direction byte `0x05` followed by a command byte. -/
theorem invalid_direction_error_still_advances_witness :
    ((0x05 : Nat) < 256) ∧
    ((protoRunFrame "pm" ProtoState.init 0 (0x05 :: [0x02]) =
      (protoRunTail "pm" 0 [0x02]).map
        (fun r => (r.1, (⟨1, 2, 5,
          ["Invalid direction: 0x" ++ hexString 2 0x05]⟩ : OutAnn) :: r.2))) ∧
    (protoRunFrame "pm" ProtoState.init 0 (0x00 :: [0x02]) =
      (protoRunTail "pm" 0 [0x02]).map
        (fun r => (r.1, (⟨1, 2, 0, ["DIR: REQ", "REQ"]⟩ : OutAnn) :: r.2))) ∧
    (protoRunFrame "pm" ProtoState.init 0 (0x05 :: [0x02])).isSome) :=
  ⟨by decide, invalid_direction_error_still_advances 0 0x05 [0x02]
    (by decide) (by decide) (by decide)⟩

set_option maxHeartbeats 4000000 in
/-- One `onData` step on the `mp` decoder emits exactly the `mpOfPm`
translation of what the `pm` decoder emits, from the same state, ending
in the same state (the direction is only consulted for the
checksum-or-value annotation's category and label prefix). -/
lemma protoOnData_mp_pm (st : ProtoState) (ss es v : Nat) :
    protoOnData "mp" st ss es v =
      (protoOnData "pm" st ss es v).map (fun r => (r.1, r.2.map mpOfPm)) := by
  obtain ⟨stat, last, seg, cnt, acc, lc⟩ := st
  have hva : ∀ x : String, "Value: " ++ ("0x" ++ x) = "Value: 0x" ++ x := by
    intro x
    rw [← str_append_assoc]
    rfl
  cases stat
  case dir =>
    by_cases hR : last ≠ some PStatus.dir
    · by_cases h0 : v = 0
      · subst h0
        simp [protoOnData, hR, puta, annotationNames, mpOfPm]
      · by_cases h1 : v = 1
        · subst h1
          simp [protoOnData, hR, h0, puta, annotationNames, mpOfPm]
        · simp [protoOnData, hR, h0, h1, puta, annotationNames, mpOfPm]
    · push_neg at hR
      subst hR
      cases cnt with
      | none => simp [protoOnData]
      | some cv =>
        by_cases h0 : v = 0
        · subst h0
          simp [protoOnData, puta, annotationNames, mpOfPm]
        · by_cases h1 : v = 1
          · subst h1
            simp [protoOnData, h0, puta, annotationNames, mpOfPm]
          · simp [protoOnData, h0, h1, puta, annotationNames, mpOfPm]
  case cmd =>
    by_cases hR : last ≠ some PStatus.cmd
    · cases htab : commandTable v <;>
        simp [protoOnData, hR, htab, puta, annotationNames, mpOfPm]
    · push_neg at hR
      subst hR
      cases cnt with
      | none => simp [protoOnData]
      | some cv =>
        cases htab : commandTable v <;>
          simp [protoOnData, htab, puta, annotationNames, mpOfPm]
  case size =>
    by_cases hR : last ≠ some PStatus.size
    · simp [protoOnData, hR, puta, annotationNames, mpOfPm]
    · push_neg at hR
      subst hR
      cases cnt with
      | none => simp [protoOnData]
      | some cv =>
        cases acc with
        | none => simp [protoOnData]
        | some av =>
          by_cases hc1 : cv = 0
          · subst hc1
            cases seg with
            | none => simp [protoOnData]
            | some sv => simp [protoOnData, puta, annotationNames, mpOfPm]
          · simp [protoOnData, hc1, puta, annotationNames, mpOfPm]
  case checksum =>
    by_cases hR : last ≠ some PStatus.checksum
    · simp [protoOnData, hR, puta, annotationNames, mpOfPm]
    · push_neg at hR
      subst hR
      cases cnt with
      | none => simp [protoOnData]
      | some cv =>
        cases acc with
        | none => simp [protoOnData]
        | some av =>
          by_cases hc3 : cv = 2
          · subst hc3
            cases seg with
            | none => simp [protoOnData]
            | some sv => simp [protoOnData, puta, annotationNames, mpOfPm, hva]
          · simp [protoOnData, hc3, puta, annotationNames, mpOfPm]
  case data =>
    by_cases hR : last ≠ some PStatus.data
    · simp [protoOnData, hR]
    · push_neg at hR
      subst hR
      cases cnt with
      | none => simp [protoOnData]
      | some cv => simp [protoOnData]

/-- `onFrameEnd` on the `mp` decoder likewise emits the `mpOfPm`
translation of the `pm` decoder's annotations (the data annotation is
direction-independent apart from its category index). -/
lemma protoOnFrameEnd_mp_pm (st : ProtoState) (ss es : Nat) :
    protoOnFrameEnd "mp" st ss es =
      (protoOnFrameEnd "pm" st ss es).map (fun r => (r.1, r.2.map mpOfPm)) := by
  obtain ⟨stat, last, seg, cnt, acc, lc⟩ := st
  by_cases hds : stat = PStatus.data
  · subst hds
    cases seg with
    | none => simp [protoOnFrameEnd]
    | some sv =>
      cases lc with
      | none => simp [protoOnFrameEnd]
      | some lcv =>
        cases lcv <;> simp [protoOnFrameEnd, puta, annotationNames, mpOfPm]
  · simp [protoOnFrameEnd, hds]

/-- `protoRunData` on the `mp` decoder is the `mpOfPm` translation of
the `pm` run. -/
lemma protoRunData_mp_pm (vals : List Nat) : ∀ (st : ProtoState) (pos : Nat),
    protoRunData "mp" st pos vals =
      (protoRunData "pm" st pos vals).map (fun r => (r.1, r.2.map mpOfPm)) := by
  induction vals with
  | nil => intro st pos; simp [protoRunData]
  | cons v vs ih =>
    intro st pos
    simp only [protoRunData, protoOnData_mp_pm, ih]
    cases h1 : protoOnData "pm" st pos (pos + 1) v with
    | none => simp
    | some r =>
      cases h2 : protoRunData "pm" r.1 (pos + 1) vs with
      | none => simp [h2]
      | some r2 => simp [h2]

/-- C3: for every frame content and any starting state, the
response-direction (`mp`) decoder's run emits, annotation for
annotation, exactly the `mpOfPm` translation of the request-direction
(`pm`) decoder's run: the 4-byte checksum-or-value field becomes a
`value`-category annotation (class index 9, `mp-value`) instead of the
`checksum` one (class index 3, `pm-checksum`) with the label prefix
`Value: ` instead of `Checksum: ` but the same hex text, and every other
annotation is identical apart from the direction's category-index shift
of 6 (`pm-…` to `mp-…`).  The final states coincide. -/
theorem response_direction_value_annotation (st : ProtoState) (pos : Nat) (vals : List Nat) :
    protoRunFrame "mp" st pos vals =
      (protoRunFrame "pm" st pos vals).map (fun r => (r.1, r.2.map mpOfPm)) := by
  unfold protoRunFrame
  dsimp only
  rw [protoRunData_mp_pm]
  cases h1 : protoRunData "pm" (protoOnFrameStart st) (pos + 1) vals with
  | none => simp
  | some r =>
    cases h2 : protoOnFrameEnd "pm" r.1 (pos + 1 + vals.length) (pos + 2 + vals.length) with
    | none => simp [protoOnFrameEnd_mp_pm, h2]
    | some r2 => simp [protoOnFrameEnd_mp_pm, h2]

/-- Inside a frame, bytes that are neither delimiter nor escape marker
feed straight through to `onData`, and the closing delimiter triggers
`onFrameEnd` and returns the slip layer to `idle`. -/
lemma bpdRun_inframe (dir : String) (mid : List Nat) : ∀ (e0 : Nat) (pr : ProtoState) (pos : Nat),
    (∀ b ∈ mid, b ≠ 0xC0 ∧ b ≠ 0xDB) →
    bpdRun dir ⟨⟨.in_frame, e0⟩, pr⟩ pos (mid ++ [0xC0]) =
      (do
        let (p1, a1) ← protoRunData dir pr pos mid
        let (p2, a2) ← protoOnFrameEnd dir p1 (pos + mid.length) (pos + mid.length + 1)
        pure ((⟨⟨.idle, e0⟩, p2⟩ : BPDState), a1 ++ a2)) := by
  induction mid with
  | nil =>
    intro e0 pr pos _
    cases h : protoOnFrameEnd dir pr pos (pos + 1) with
    | none =>
      simp [bpdRun, bpdDecode, slipDecode, protoHandleEvents, protoHandleEvent,
        protoRunData, h]
    | some r =>
      simp [bpdRun, bpdDecode, slipDecode, protoHandleEvents, protoHandleEvent,
        protoRunData, h]
  | cons v vs ih =>
    intro e0 pr pos hmid
    have hv := hmid v (List.mem_cons_self v vs)
    have hvs : ∀ b ∈ vs, b ≠ 0xC0 ∧ b ≠ 0xDB := fun b hb => hmid b (List.mem_cons_of_mem v hb)
    cases h : protoOnData dir pr pos (pos + 1) v with
    | none =>
      simp [bpdRun, bpdDecode, slipDecode, protoHandleEvents, protoHandleEvent,
        protoRunData, h, hv.1, hv.2]
    | some r =>
      have ha : pos + 1 + vs.length = pos + (vs.length + 1) := by omega
      have hrec := ih e0 r.1 (pos + 1) hvs
      rw [ha] at hrec
      cases h2 : protoRunData dir r.1 (pos + 1) vs with
      | none =>
        simp [List.cons_append, bpdRun, bpdDecode, slipDecode, protoHandleEvents,
          protoHandleEvent, protoRunData, hv.1, hv.2, h, hrec, h2]
      | some r2 =>
        cases h3 : protoOnFrameEnd dir r2.1 (pos + (vs.length + 1))
            (pos + (vs.length + 1) + 1) with
        | none =>
          simp [List.cons_append, bpdRun, bpdDecode, slipDecode, protoHandleEvents,
            protoHandleEvent, protoRunData, hv.1, hv.2, h, hrec, h2, h3]
        | some r3 =>
          simp [List.cons_append, bpdRun, bpdDecode, slipDecode, protoHandleEvents,
            protoHandleEvent, protoRunData, hv.1, hv.2, h, hrec, h2, h3]

/-- A full wire frame `0xC0 <body> 0xC0` whose body contains neither
delimiter nor escape bytes is decoded by a `BootloaderProtocolDecoder`
(from `idle`) exactly as `protoRunFrame` on the body, with the slip
layer back to `idle` at the end. -/
lemma bpdRun_frame (dir : String) (mid : List Nat) (e0 pos : Nat) (pr : ProtoState)
    (hmid : ∀ b ∈ mid, b ≠ 0xC0 ∧ b ≠ 0xDB) :
    bpdRun dir ⟨⟨.idle, e0⟩, pr⟩ pos (0xC0 :: (mid ++ [0xC0])) =
      (protoRunFrame dir pr pos mid).map (fun r => (⟨⟨.idle, e0⟩, r.1⟩, r.2)) := by
  have hrec := bpdRun_inframe dir mid e0 (protoOnFrameStart pr) (pos + 1) hmid
  unfold protoRunFrame
  dsimp only
  rw [show pos + 2 + mid.length = pos + 1 + mid.length + 1 from by omega]
  cases h2 : protoRunData dir (protoOnFrameStart pr) (pos + 1) mid with
  | none =>
    simp [bpdRun, bpdDecode, slipDecode, protoHandleEvents, protoHandleEvent, hrec, h2]
  | some r =>
    cases h3 : protoOnFrameEnd dir r.1 (pos + 1 + mid.length) (pos + 1 + mid.length + 1) with
    | none =>
      simp [bpdRun, bpdDecode, slipDecode, protoHandleEvents, protoHandleEvent, hrec, h2, h3]
    | some r3 =>
      simp [bpdRun, bpdDecode, slipDecode, protoHandleEvents, protoHandleEvent, hrec, h2, h3]

set_option maxRecDepth 8000 in
/-- C2 counterexample: on the concrete request frame
`0xC0 00 02 05 00 AA BB CC DD 01 0xC0`, the checksum annotation's text
is the lowercase `0xddccbbaa` (Python `%08x`), and no annotation of the
frame carries the claimed uppercase text `0xDDCCBBAA`. -/
theorem request_frame_uppercase_counterexample :
    (bpdRun "pm" BPDState.init 0
        [0xC0, 0x00, 0x02, 0x05, 0x00, 0xAA, 0xBB, 0xCC, 0xDD, 0x01, 0xC0]).map
      (fun r => ((r.2.filter (fun a => a.ann == 3)).map OutAnn.messages,
        decide (∀ a ∈ r.2, "0xDDCCBBAA" ∉ a.messages))) =
      some ([["Checksum: 0xddccbbaa", "0xddccbbaa"]], true) := by
  decide

/-- C2 (amended): feeding the request decoder the frame
`0xC0 00 02 05 00 AA BB CC DD <data…> 0xC0` produces, in order: the
direction annotation `REQ` on the first body byte, the command
annotation `FLASH_BEGIN` (opcode 0x02's name), the size annotation with
text `0x0005` on the two size bytes, the checksum annotation with text
`0xddccbbaa` (lowercase hex of the little-endian accumulation) on the
four checksum bytes, and at frame end one data annotation whose long
label is `Data: ` followed by opcode 0x02's payload-format description.
(The claim's uppercase `0xDDCCBBAA` is corrected to the lowercase text
the code emits.) -/
theorem request_frame_annotations (data : List Nat)
    (hdata : ∀ b ∈ data, b < 256 ∧ b ≠ 0xC0 ∧ b ≠ 0xDB) :
    ∃ st', bpdRun "pm" BPDState.init 0
        (0xC0 :: (([0x00, 0x02, 0x05, 0x00, 0xAA, 0xBB, 0xCC, 0xDD] ++ data) ++ [0xC0])) =
      some (st',
        [⟨1, 2, 0, ["DIR: REQ", "REQ"]⟩,
         ⟨2, 3, 1, ["CMD: FLASH_BEGIN", "FLASH_BEGIN"]⟩,
         ⟨3, 5, 2, ["Size: 0x0005", "0x0005"]⟩,
         ⟨5, 9, 3, ["Checksum: 0xddccbbaa", "0xddccbbaa"]⟩,
         ⟨(if data.isEmpty then 5 else 9), 9 + data.length, 4,
          dataMessages (commandTable 0x02)⟩]) := by
  have hmid : ∀ b ∈ ([0x00, 0x02, 0x05, 0x00, 0xAA, 0xBB, 0xCC, 0xDD] ++ data),
      b ≠ 0xC0 ∧ b ≠ 0xDB := by
    intro b hb
    rcases List.mem_append.mp hb with h | h
    · simp at h
      rcases h with rfl | rfl | rfl | rfl | rfl | rfl | rfl | rfl <;> decide
    · exact (hdata b h).2
  rw [show ([0x00, 0x02, 0x05, 0x00, 0xAA, 0xBB, 0xCC, 0xDD] ++ data : List Nat) =
    0x00 :: 0x02 :: 0x05 :: 0x00 :: 0xAA :: 0xBB :: 0xCC :: 0xDD :: data from rfl] at hmid ⊢
  rw [show BPDState.init = (⟨⟨.idle, 0⟩, ProtoState.init⟩ : BPDState) from rfl,
    bpdRun_frame "pm" _ 0 0 ProtoState.init hmid]
  obtain ⟨st', heq, _⟩ := protoRunFrame_full ProtoState.init 0 0x00 0x02 0x05 0x00
    0xAA 0xBB 0xCC 0xDD data
  rw [heq]
  refine ⟨⟨⟨.idle, 0⟩, st'⟩, ?_⟩
  have e1 : pmDirAnns 1 0 = [⟨1, 2, 0, ["DIR: REQ", "REQ"]⟩] := by decide
  have e2 : pmCmdAnns 2 0x02 = [⟨2, 3, 1, ["CMD: FLASH_BEGIN", "FLASH_BEGIN"]⟩] := by decide
  have e3 : pmSizeAnn 3 0x05 0x00 = ⟨3, 5, 2, ["Size: 0x0005", "0x0005"]⟩ := by decide
  have e4 : pmChecksumAnn 5 0xAA 0xBB 0xCC 0xDD =
      ⟨5, 9, 3, ["Checksum: 0xddccbbaa", "0xddccbbaa"]⟩ := by decide
  simp [e1, e2, e3, e4, BPDState.init, SlipState.init]

/-- Witness for `request_frame_annotations` with one data byte. -/
theorem request_frame_annotations_witness :
    (∀ b ∈ [0x01], b < 256 ∧ b ≠ 0xC0 ∧ b ≠ 0xDB) ∧
    ∃ st', bpdRun "pm" BPDState.init 0
        (0xC0 :: (([0x00, 0x02, 0x05, 0x00, 0xAA, 0xBB, 0xCC, 0xDD] ++ [0x01]) ++ [0xC0])) =
      some (st',
        [⟨1, 2, 0, ["DIR: REQ", "REQ"]⟩,
         ⟨2, 3, 1, ["CMD: FLASH_BEGIN", "FLASH_BEGIN"]⟩,
         ⟨3, 5, 2, ["Size: 0x0005", "0x0005"]⟩,
         ⟨5, 9, 3, ["Checksum: 0xddccbbaa", "0xddccbbaa"]⟩,
         ⟨(if ([0x01] : List Nat).isEmpty then 5 else 9), 9 + [0x01].length, 4,
          dataMessages (commandTable 0x02)⟩]) :=
  ⟨by decide, request_frame_annotations [0x01] (by decide)⟩

/-- C7 counterexample: a FRAME byte event with `is_valid = false` on the
`pm` channel is not discarded: the `pm` decoder's state changes (here
the byte `0xC0` opens a frame), so the result is not `(initial state,
no annotations)` as the claim requires. -/
theorem router_validity_counterexample :
    decoderDecode ⟨"RX", "TX"⟩ DecoderState.init ⟨0, 1, "FRAME", 0, 0xC0, false⟩ ≠
      some (DecoderState.init, []) := by
  decide

/-- C7 (amended): the Channel Router never consults the validity flag:
`Decoder.decode` unpacks `is_valid` but its result is identical whether
the flag is true or false — every FRAME event's byte is forwarded to
each matching direction's decoder regardless of validity. -/
theorem router_ignores_validity (opts : DecoderOptions) (st : DecoderState)
    (ss es rxtx value : Nat) (pt : String) (v1 v2 : Bool) :
    decoderDecode opts st ⟨ss, es, pt, rxtx, value, v1⟩ =
      decoderDecode opts st ⟨ss, es, pt, rxtx, value, v2⟩ := rfl

/-- C6 counterexample: an unexpected byte while idle (`0x41` on a fresh
decoder) is a framing error, but no annotation at all is emitted for it:
`BootloaderProtocolDecoder.onError` is `pass`, so the error is dropped
instead of being surfaced as an error-category annotation. -/
theorem framing_error_no_annotation_counterexample :
    (decoderDecode ⟨"RX", "TX"⟩ DecoderState.init ⟨0, 1, "FRAME", 0, 0x41, true⟩).map
      (fun r => r.2) = some [] := by
  decide

/-- C6 (amended): each framing error — an unexpected byte while idle, or
an invalid escape follow-on code — is reported through the Frame
Decoder's `onError` callback with a descriptive message, and changes
nothing beyond the single documented state transition (idle stays idle;
escape returns to in-frame); but the Protocol Field Decoder's `onError`
handler discards the report, so framing errors produce no annotations. -/
theorem framing_errors_reported_not_annotated (st : SlipState) (pst : ProtoState)
    (dir : String) (ss es v : Nat) :
    (st.slipStatus = .idle → v ≠ 0xC0 →
      slipDecode st ss es v =
        (st, [.error ss es ("Unexpected value: 0x" ++ hexString 2 v)])) ∧
    (st.slipStatus = .escape → v ≠ 0xDC → v ≠ 0xDD →
      slipDecode st ss es v = ({ st with slipStatus := .in_frame },
        [.error st.slipEscStart es ("Unexpected escape value: 0x" ++ hexString 2 v)])) ∧
    (∀ msg, protoHandleEvent dir pst (.error ss es msg) = some (pst, [])) := by
  refine ⟨?_, ?_, ?_⟩
  · intro h1 h2
    simp [slipDecode, h1, h2]
  · intro h1 h2 h3
    simp [slipDecode, h1, h2, h3]
  · intro msg
    simp [protoHandleEvent]

/-- Witness for `framing_errors_reported_not_annotated` at the byte
`0x41`, from idle and from the escape state. -/
theorem framing_errors_reported_not_annotated_witness :
    (slipDecode ⟨.idle, 0⟩ 0 1 0x41 =
      (⟨.idle, 0⟩, [.error 0 1 ("Unexpected value: 0x" ++ hexString 2 0x41)])) ∧
    (slipDecode ⟨.escape, 5⟩ 7 8 0x41 =
      (⟨.in_frame, 5⟩, [.error 5 8 ("Unexpected escape value: 0x" ++ hexString 2 0x41)])) ∧
    (protoHandleEvent "pm" ProtoState.init (.error 0 1 "some message") =
      some (ProtoState.init, [])) :=
  ⟨(framing_errors_reported_not_annotated ⟨.idle, 0⟩ ProtoState.init "pm" 0 1 0x41).1
      rfl (by decide),
   (framing_errors_reported_not_annotated ⟨.escape, 5⟩ ProtoState.init "pm" 7 8 0x41).2.1
      rfl (by decide) (by decide),
   (framing_errors_reported_not_annotated ⟨.idle, 0⟩ ProtoState.init "pm" 0 1 0x41).2.2
      "some message"⟩

/-- One `bpdDecode` step never raises and preserves the decoder
invariant. -/
lemma bpdDecode_inv (dir : String) (st : BPDState) (ss es v : Nat)
    (hdir : dir = "pm" ∨ dir = "mp") (hinv : bpdInv st) :
    (bpdDecode dir st ss es v).elim False (fun r => bpdInv r.1) := by
  obtain ⟨⟨sst, esc⟩, pst⟩ := st
  obtain ⟨hp, hlc⟩ := hinv
  simp only at hp hlc
  cases sst
  case idle =>
    by_cases hv : v = 0xC0
    · subst hv
      have h1 := protoOnFrameStart_inv pst
      simp [bpdDecode, slipDecode, protoHandleEvents, protoHandleEvent, bpdInv, h1.1, h1.2]
    · simp [bpdDecode, slipDecode, protoHandleEvents, protoHandleEvent, bpdInv, hv, hp]
  case in_frame =>
    by_cases hv : v = 0xC0
    · subst hv
      obtain ⟨r, hr, hres⟩ := elim_false_exists (protoOnFrameEnd_inv dir pst ss es hdir hp)
      simp [bpdDecode, slipDecode, protoHandleEvents, protoHandleEvent, bpdInv, hr, hres, hp]
    · by_cases hv2 : v = 0xDB
      · subst hv2
        simp [bpdDecode, slipDecode, protoHandleEvents, protoHandleEvent, bpdInv, hv, hp,
          hlc (by simp)]
      · obtain ⟨r, hr, hres⟩ := elim_false_exists
          (protoOnData_inv dir pst ss es v hdir hp (hlc (by simp)))
        simp [bpdDecode, slipDecode, protoHandleEvents, protoHandleEvent, bpdInv, hv, hv2,
          hr, hres.1, hres.2]
  case escape =>
    by_cases hv : v = 0xDC
    · subst hv
      obtain ⟨r, hr, hres⟩ := elim_false_exists
        (protoOnData_inv dir pst esc es 0xC0 hdir hp (hlc (by simp)))
      simp [bpdDecode, slipDecode, protoHandleEvents, protoHandleEvent, bpdInv, hr,
        hres.1, hres.2]
    · by_cases hv2 : v = 0xDD
      · subst hv2
        obtain ⟨r, hr, hres⟩ := elim_false_exists
          (protoOnData_inv dir pst esc es 0xDB hdir hp (hlc (by simp)))
        simp [bpdDecode, slipDecode, protoHandleEvents, protoHandleEvent, bpdInv, hv, hr,
          hres.1, hres.2]
      · simp [bpdDecode, slipDecode, protoHandleEvents, protoHandleEvent, bpdInv, hv, hv2,
          hp, hlc (by simp)]

/-- One routed `Decoder.decode` step never raises (for a physical
channel in `{0, 1}`) and preserves both decoders' invariants. -/
lemma decoderDecode_inv (opts : DecoderOptions) (st : DecoderState) (p : UartPacket)
    (hrx : p.rxtx < 2) (hpm : bpdInv st.pmDecoder) (hmp : bpdInv st.mpDecoder) :
    (decoderDecode opts st p).elim False
      (fun r => bpdInv r.1.pmDecoder ∧ bpdInv r.1.mpDecoder) := by
  obtain ⟨ss, es, pt, rx, v, valid⟩ := p
  simp only at hrx
  by_cases hpt : pt = "FRAME"
  · subst hpt
    interval_cases rx
    · by_cases h1 : ("RX" : String) = opts.pm_channel
      · obtain ⟨r1, hr1, hres1⟩ := elim_false_exists
          (bpdDecode_inv "pm" st.pmDecoder ss es v (Or.inl rfl) hpm)
        by_cases h2 : ("RX" : String) = opts.mp_channel
        · obtain ⟨r2, hr2, hres2⟩ := elim_false_exists
            (bpdDecode_inv "mp" st.mpDecoder ss es v (Or.inr rfl) hmp)
          simp [decoderDecode, rxtxChannels, ← h1, ← h2, hr1, hr2, hres1, hres2]
        · simp [decoderDecode, rxtxChannels, ← h1, h2, hr1, hres1, hmp]
      · by_cases h2 : ("RX" : String) = opts.mp_channel
        · obtain ⟨r2, hr2, hres2⟩ := elim_false_exists
            (bpdDecode_inv "mp" st.mpDecoder ss es v (Or.inr rfl) hmp)
          simp [decoderDecode, rxtxChannels, h1, ← h2, hr2, hpm, hres2]
        · simp [decoderDecode, rxtxChannels, h1, h2, hpm, hmp]
    · by_cases h1 : ("TX" : String) = opts.pm_channel
      · obtain ⟨r1, hr1, hres1⟩ := elim_false_exists
          (bpdDecode_inv "pm" st.pmDecoder ss es v (Or.inl rfl) hpm)
        by_cases h2 : ("TX" : String) = opts.mp_channel
        · obtain ⟨r2, hr2, hres2⟩ := elim_false_exists
            (bpdDecode_inv "mp" st.mpDecoder ss es v (Or.inr rfl) hmp)
          simp [decoderDecode, rxtxChannels, ← h1, ← h2, hr1, hr2, hres1, hres2]
        · simp [decoderDecode, rxtxChannels, ← h1, h2, hr1, hres1, hmp]
      · by_cases h2 : ("TX" : String) = opts.mp_channel
        · obtain ⟨r2, hr2, hres2⟩ := elim_false_exists
            (bpdDecode_inv "mp" st.mpDecoder ss es v (Or.inr rfl) hmp)
          simp [decoderDecode, rxtxChannels, h1, ← h2, hr2, hpm, hres2]
        · simp [decoderDecode, rxtxChannels, h1, h2, hpm, hmp]
  · simp [decoderDecode, hpt, hpm, hmp]

/-- A whole routed run never raises and preserves the invariants. -/
lemma decoderRun_inv (opts : DecoderOptions) : ∀ (ps : List UartPacket) (st : DecoderState),
    (∀ p ∈ ps, p.rxtx < 2) → bpdInv st.pmDecoder → bpdInv st.mpDecoder →
    (decoderRun opts st ps).elim False
      (fun r => bpdInv r.1.pmDecoder ∧ bpdInv r.1.mpDecoder) := by
  intro ps
  induction ps with
  | nil =>
    intro st _ hpm hmp
    simp only [decoderRun, Option.elim_some]
    exact ⟨hpm, hmp⟩
  | cons p ps ih =>
    intro st hrx hpm hmp
    obtain ⟨r, hr, hres⟩ := elim_false_exists
      (decoderDecode_inv opts st p (hrx p (List.mem_cons_self p ps)) hpm hmp)
    obtain ⟨r2, hr2, hres2⟩ := elim_false_exists
      (ih r.1 (fun q hq => hrx q (List.mem_cons_of_mem p hq)) hres.1 hres.2)
    simp [decoderRun, hr, hr2]
    exact hres2

/-- C9: for every packet sequence whose physical channel indices are in
`{0, 1}` (the only values the uart input layer produces), decoding runs
to completion without raising: every fallible operation modelled in the
`Option` monad (attribute reads, annotation-name lookup, channel-table
indexing) succeeds, and in particular no step of the core ever raises —
the `No_more_data` exception defined in the source is never raised by
any operation, consistent with it being dead code. -/
theorem decode_never_raises (opts : DecoderOptions) (ps : List UartPacket)
    (hrx : ∀ p ∈ ps, p.rxtx < 2) :
    (decoderRun opts DecoderState.init ps).isSome := by
  have h0 : bpdInv BPDState.init := by
    constructor
    · constructor
      · intro h
        simp [BPDState.init, ProtoState.init] at h
      · intro h
        simp [BPDState.init, ProtoState.init] at h
    · intro h
      simp [BPDState.init, SlipState.init] at h
  obtain ⟨r, hr, _⟩ := elim_false_exists (decoderRun_inv opts ps DecoderState.init hrx h0 h0)
  simp [hr]

/-- Witness for `decode_never_raises` on a mixed packet list: a frame
byte on each channel and a non-FRAME packet. -/
theorem decode_never_raises_witness :
    (∀ p ∈ [(⟨0, 1, "FRAME", 0, 0xC0, true⟩ : UartPacket),
            ⟨1, 2, "IDLE", 0, 0, false⟩,
            ⟨2, 3, "FRAME", 1, 0x41, true⟩], p.rxtx < 2) ∧
    (decoderRun ⟨"RX", "TX"⟩ DecoderState.init
      [⟨0, 1, "FRAME", 0, 0xC0, true⟩,
       ⟨1, 2, "IDLE", 0, 0, false⟩,
       ⟨2, 3, "FRAME", 1, 0x41, true⟩]).isSome :=
  ⟨by decide, decode_never_raises ⟨"RX", "TX"⟩ _ (by decide)⟩

end Esp32
